import Mathlib

/-!
A verification development for the NGO site-selection tool, a pair of
Streamlit applications (`NGOexcelspider.py`, the tabular workflow, and
`NGOsliderspider.py`, the slider workflow).  The data model and the
operations below are shallow embeddings of the Python source: numeric
cells and capacity values are modelled as exact rationals (the Python
floats in play are small decimals), the CSV normalizer is modelled as a
function over its parsed row table, and the in-place list mutation
performed by `create_radar_chart` is modelled by explicit state passing.
-/

/-- A table cell as seen by the normalizer: either a value whose numeric
coercion (`pd.to_numeric` / `float`) succeeds, yielding `v`, or a value
whose coercion fails. -/
inductive Cell where
  | num (v : ℚ)
  | nonNum (s : String)
  deriving DecidableEq

/-- Numeric coercion of a cell; `none` models a raised
`ValueError`/`TypeError`. -/
def Cell.toNum : Cell → Option ℚ
  | .num v => some v
  | .nonNum _ => none

/-- One raw table row, restricted to the three columns the normalizer
reads (`NGOexcelspider.py` lines 51-53): theme label, community capacity
cell, NGO capability cell. -/
structure Row where
  label : String
  comm : Cell
  ngo : Cell
  deriving DecidableEq

/-- Header detection (`NGOexcelspider.py` lines 34-42): row 0 is skipped
as a header (`start_row = 1`) exactly when numeric coercion of its
column-2 or column-3 value fails; otherwise row 0 is data
(`start_row = 0`). -/
def headerSkip (r : Row) : Nat :=
  match r.comm.toNum, r.ngo.toNum with
  | some _, some _ => 0
  | _, _ => 1

/-- Coercion of a whole column (`[float(x) for x in ...]`, lines 62-63);
fails as soon as one cell fails. -/
def seqNums : List Cell → Option (List ℚ)
  | [] => some []
  | c :: t =>
    match c.toNum, seqNums t with
    | some v, some vs => some (v :: vs)
    | _, _ => none

/-- Index, counted from `i`, of the first row whose community or NGO
value falls outside [0, 10] (the validation loop of lines 69-72);
`none` when every pair is in range. -/
def firstOutOfRange : List ℚ → List ℚ → Nat → Option Nat
  | c :: cs, n :: ns, i =>
    if 0 ≤ c ∧ c ≤ 10 ∧ 0 ≤ n ∧ n ≤ 10 then firstOutOfRange cs ns (i + 1)
    else some i
  | _, _, _ => none

/-- The user-facing failure modes of `load_data_from_csv`, named after the
spec's error taxonomy; the `Nat` payloads carry the varying part of the
reported message (required row total, 1-based offending row). -/
inductive LoadError where
  | readError
  | rowCountError (required : Nat)
  | exactRowsError
  | typeError
  | rangeError (row : Nat)
  deriving DecidableEq

/-- Model of `load_data_from_csv` (`NGOexcelspider.py` lines 25-78) over
its parsed row table.  An empty table makes the header probe `df.iloc[0, 1]` raise,
which the outer handler reports as a read failure.  Otherwise: optional
header skip, row-count check against `start_row + 9` (message states
`9 + start_row` required rows), slice of 9 data rows, redundant
exact-9 length check, numeric coercion of both columns, and the range
check reporting the first offending row as `i + start_row + 1`.
Success returns (labels, community capacities, NGO capabilities). -/
def loadData (rows : List Row) : Except LoadError (List String × List ℚ × List ℚ) :=
  match rows.head? with
  | none => .error .readError
  | some r0 =>
    let start_row := headerSkip r0
    if rows.length < start_row + 9 then .error (.rowCountError (9 + start_row))
    else
      let dataRows := (rows.drop start_row).take 9
      if dataRows.length ≠ 9 then .error .exactRowsError
      else
        match seqNums (dataRows.map (·.comm)), seqNums (dataRows.map (·.ngo)) with
        | some comms, some ngos =>
          match firstOutOfRange comms ngos 0 with
          | some i => .error (.rangeError (i + start_row + 1))
          | none => .ok (dataRows.map (·.label), comms, ngos)
        | _, _ => .error .typeError

/-- A fully numeric row (label, community value, NGO value). -/
def numRow (p : String × ℚ × ℚ) : Row :=
  ⟨p.1, .num p.2.1, .num p.2.2⟩

/-- A table every one of whose rows is numeric. -/
def numRows (ps : List (String × ℚ × ℚ)) : List Row :=
  ps.map numRow

/-- Both values of a numeric row lie in [0, 10] (the per-row condition of
line 70). -/
def pairInRangeB (p : String × ℚ × ℚ) : Bool :=
  decide (0 ≤ p.2.1 ∧ p.2.1 ≤ 10 ∧ 0 ≤ p.2.2 ∧ p.2.2 ≤ 10)

/-- Placeholder row used with `List.getD`. -/
def pdummy : String × ℚ × ℚ := ("", 0, 0)

/-! ## Fit scorer and classifier (tabular workflow) -/

/-- The four classification bands of the tabular scorer (`partGap` is the
spec's PartialGap band). -/
inductive Band where
  | aligned
  | redundant
  | gap
  | partGap
  deriving DecidableEq

/-- Per-dimension score of the tabular workflow
(`score = -10 + ngo_cap + comm_cap`, line 240). -/
def tabScore (ngo_cap comm_cap : ℚ) : ℚ := -10 + ngo_cap + comm_cap

/-- Band selection, following the `if`/`elif` precedence of
lines 248-255 (equivalently 258-264): `== 0`, then `> 0`, then `< -2`,
else the PartialGap band. -/
def classify (score : ℚ) : Band :=
  if score = 0 then .aligned
  else if score > 0 then .redundant
  else if score < -2 then .gap
  else .partGap

/-! ## Recommendation catalogue and label matching (tabular workflow) -/

/-- ASCII lowercasing, modelling `str.lower()` on the ASCII strings in
play. -/
def lowerStr (s : String) : String := ⟨s.data.map Char.toLower⟩

/-- Does the second list start with the first? -/
def leadMatch : List Char → List Char → Bool
  | [], _ => true
  | _ :: _, [] => false
  | a :: as, b :: bs => a == b && leadMatch as bs

/-- Contiguous-substring test, `hasSub hay needle` modelling the Python
`needle in hay`. -/
def hasSub : List Char → List Char → Bool
  | [], needle => leadMatch needle []
  | h :: t, needle => leadMatch needle (h :: t) || hasSub t needle

/-- Whitespace split, modelling `str.split()` on the catalogue keys
(which contain single spaces only); empty fragments are dropped. -/
def splitWs : List Char → List Char → List (List Char)
  | [], acc => if acc.isEmpty then [] else [acc.reverse]
  | c :: t, acc =>
    if c == ' ' then
      if acc.isEmpty then splitWs t [] else acc.reverse :: splitWs t []
    else splitWs t (c :: acc)

/-- The matching condition of line 268:
`key.lower() in theme.lower() or any(word in theme.lower() for word in
key.lower().split())`. -/
def themeMatches (key theme : String) : Bool :=
  hasSub (lowerStr theme).data (lowerStr key).data ||
    (splitWs (lowerStr key).data []).any fun w => hasSub (lowerStr theme).data w

/-- The fixed 9-entry recommendation catalogue of lines 225-235, in its
defined (insertion) order. -/
def strategic_recommendations : List (String × String) :=
  [("1.1 Awareness & Education",
    "improving communication on the effects of conservation, or reaching out to younger generations"),
   ("1.2 Community Governance",
    "strengthening ties with community members to gain trust"),
   ("1.3 Tradition Preservation",
    "collaborating with the community to include traditional elements in ecotourism"),
   ("2.1 Income & Revenue",
    "adapting business model to increase the portion of the revenue reserved for tour guide salaries and conservation"),
   ("2.2 Employment",
    "offer employment to more local residents with opportunities to develop skills and expertise"),
   ("2.3 Amenities",
    "improve infrastructure for the daily lives of residents and adapt it to accommodate tourists"),
   ("3.1 Habitat Conservation",
    "creating habitat improvements for the natural resource"),
   ("3.2 Shark Preservation",
    "strengthening fishing conservation efforts"),
   ("3.3 Protected Area",
    "strengthening and implementing area protection regulations")]

/-- Placeholder catalogue entry used with `List.getD`. -/
def kvDummy : String × String := ("", "")

/-- The PartialGap recommendation lookup of lines 266-273: scan the
catalogue in order, keep the first entry whose key matches the theme
label, fall back to the generic suggestion. -/
def findRecommendation (theme : String) : String :=
  match strategic_recommendations.find? (fun kv => themeMatches kv.1 theme) with
  | some kv => kv.2
  | none => "general strategic adjustments"

/-! ## Radar geometry -/

/-- The `xs += xs[:1]` loop-closing append that `create_radar_chart`
performs on its angle list and, in place, on both of its list arguments
(`NGOexcelspider.py` lines 89-93, `NGOsliderspider.py` lines 21-25). -/
def closeLoop {α : Type} (xs : List α) : List α := xs ++ xs.take 1

/-- The radar angles `angles = [n / float(N) * 2 * pi for n in range(N)]`,
represented by the rational coefficient n/N of the full turn; the 2π
factor is restored where the angles are compared as real numbers. -/
def angleFrac (N : Nat) : List ℚ := (List.range N).map fun n : Nat => (n : ℚ) / (N : ℚ)

/-- The radial extent of the chart (`max_value = 10`). -/
def max_value : ℚ := 10

/-- The constant outer reference ring
(`community_outer = [max_value] * len(community_capacities)`). -/
def communityOuter (community_capacities : List ℚ) : List ℚ :=
  List.replicate community_capacities.length max_value

/-- The inner boundary polyline
(`community_fill_values = [max_value - val for val in
community_capacities]`). -/
def communityFill (community_capacities : List ℚ) : List ℚ :=
  community_capacities.map fun val => max_value - val

/-- Contents of a caller's list variable after `create_radar_chart`
returns: the call extends the argument object in place via `closeLoop`,
so the variable still holds its pre-call list exactly when a copy was
passed.  Both mains pass `.copy()` (`NGOexcelspider.py` line 215,
`NGOsliderspider.py` line 122). -/
def afterChartCall (passedCopy : Bool) (l : List ℚ) : List ℚ :=
  if passedCopy then l else closeLoop l

/-! ## Slider workflow scorer -/

/-- The hardcoded NGO capability reference vector of the slider app
(`NGOsliderspider.py` line 88). -/
def ngo_capabilities : List ℚ := [5, 4, 5, 3, 4, 2, 4, 6, 6]

/-- The per-dimension fit score of the slider workflow
(`min(ngo_cap, comm_cap) + (abs(ngo_cap - comm_cap) * 0.1)`, line 139). -/
def fit_score (ngo_cap comm_cap : ℚ) : ℚ :=
  min ngo_cap comm_cap + |ngo_cap - comm_cap| * 0.1

/-- The list built by the scoring loop of lines 135-140.  Note: the
source zips `ngo_capabilities[:-1]` — the 9-element reference vector
minus its final element (the chart was given a `.copy()`, so the local
list was never mutated) — against the 9 community values, forming only
8 pairs. -/
def fit_scores (community_capacities : List ℚ) : List ℚ :=
  (ngo_capabilities.dropLast.zip community_capacities).map fun p => fit_score p.1 p.2

/-- Overall fit, `overall_fit = np.mean(fit_scores)` (line 142). -/
def overall_fit (community_capacities : List ℚ) : ℚ :=
  (fit_scores community_capacities).sum / ((fit_scores community_capacities).length : ℚ)

/-- Follows the spec's words (§4.3): the arithmetic mean of ALL nine
per-dimension scores, one per dimension, for comparison with the
source's `overall_fit`. -/
def spec_fit_scores (community_capacities : List ℚ) : List ℚ :=
  (ngo_capabilities.zip community_capacities).map fun p => fit_score p.1 p.2

/-- Follows the spec's words (§4.3): mean over all nine dimensions. -/
def spec_overall_fit (community_capacities : List ℚ) : ℚ :=
  (spec_fit_scores community_capacities).sum /
    ((spec_fit_scores community_capacities).length : ℚ)

/-! ## Helper lemmas -/

theorem getD_map_lt {α β : Type} (f : α → β) (d : β) (d' : α) :
    ∀ (l : List α) (i : Nat), i < l.length → (l.map f).getD i d = f (l.getD i d')
  | _ :: _, 0, _ => by simp
  | _ :: t, i + 1, h => by
    simp only [List.map_cons, List.getD_cons_succ]
    exact getD_map_lt f d d' t i (by simpa using h)

theorem getD_replicate_lt {α : Type} (a d : α) :
    ∀ (n i : Nat), i < n → (List.replicate n a).getD i d = a
  | _ + 1, 0, _ => by simp [List.replicate]
  | n + 1, i + 1, h => by
    simp only [List.replicate, List.getD_cons_succ]
    exact getD_replicate_lt a d n i (Nat.lt_of_succ_lt_succ h)

theorem getD_range_lt : ∀ (N i : Nat), i < N → (List.range N).getD i 0 = i := by
  intro N i h
  rw [List.getD_eq_getElem _ _ (by simpa using h)]
  simp

theorem find?_getD_first {α : Type} (p : α → Bool) (d : α) :
    ∀ (l : List α) (i : Nat), i < l.length → p (l.getD i d) = true →
      (∀ j, j < i → p (l.getD j d) = false) → l.find? p = some (l.getD i d)
  | a :: t, 0, _, hp, _ => by
    simp only [List.getD_cons_zero] at hp ⊢
    exact List.find?_cons_of_pos _ hp
  | a :: t, i + 1, h, hp, hb => by
    have ha : p a = false := by simpa using hb 0 (Nat.succ_pos i)
    rw [List.find?_cons_of_neg _ (by simp [ha])]
    simp only [List.getD_cons_succ] at hp ⊢
    exact find?_getD_first p d t i (by simpa using h) hp fun j hj => by
      simpa using hb (j + 1) (Nat.succ_lt_succ hj)

theorem sum_bounds_of_ranges :
    ∀ l : List ℚ, (∀ x ∈ l, 0 ≤ x ∧ x ≤ 10) → 0 ≤ l.sum ∧ l.sum ≤ 10 * l.length
  | [], _ => by simp
  | a :: t, h => by
    have ha := h a (List.mem_cons_self a t)
    have ht := sum_bounds_of_ranges t fun x hx => h x (List.mem_cons_of_mem a hx)
    simp only [List.sum_cons, List.length_cons]
    push_cast
    constructor
    · linarith [ht.1, ha.1]
    · linarith [ht.2, ha.2]

theorem closeLoop_length {α : Type} (l : List α) (h : l ≠ []) :
    (closeLoop l).length = l.length + 1 := by
  cases l with
  | nil => exact absurd rfl h
  | cons a t => simp [closeLoop]

theorem closeLoop_getLast? {α : Type} (l : List α) (h : l ≠ []) :
    (closeLoop l).getLast? = l.head? := by
  cases l with
  | nil => exact absurd rfl h
  | cons a t =>
    have hc : closeLoop (a :: t) = (a :: t) ++ [a] := by simp [closeLoop]
    rw [hc, List.getLast?_concat]
    rfl

theorem angleFrac_getD (N i : Nat) (h : i < N) :
    (angleFrac N).getD i 0 = (i : ℚ) / (N : ℚ) := by
  have hlen : i < (List.range N).length := by simpa using h
  rw [angleFrac, getD_map_lt (fun n : Nat => (n : ℚ) / (N : ℚ)) 0 0 (List.range N) i hlen,
    getD_range_lt N i h]

theorem seqNums_map_num : ∀ qs : List ℚ, seqNums (qs.map Cell.num) = some qs
  | [] => rfl
  | q :: t => by simp [seqNums, Cell.toNum, seqNums_map_num t]

theorem firstOutOfRange_none :
    ∀ (ps : List (String × ℚ × ℚ)), (∀ p ∈ ps, pairInRangeB p = true) →
      ∀ i, firstOutOfRange (ps.map fun p => p.2.1) (ps.map fun p => p.2.2) i = none
  | [], _, _ => rfl
  | p :: t, h, i => by
    have hcond : 0 ≤ p.2.1 ∧ p.2.1 ≤ 10 ∧ 0 ≤ p.2.2 ∧ p.2.2 ≤ 10 := by
      simpa [pairInRangeB] using h p (List.mem_cons_self p t)
    simp only [List.map_cons, firstOutOfRange, if_pos hcond]
    exact firstOutOfRange_none t (fun x hx => h x (List.mem_cons_of_mem p hx)) (i + 1)

theorem firstOutOfRange_some :
    ∀ (ps : List (String × ℚ × ℚ)) (k : Nat), k < ps.length →
      (∀ j, j < k → pairInRangeB (ps.getD j pdummy) = true) →
      pairInRangeB (ps.getD k pdummy) = false →
      ∀ i, firstOutOfRange (ps.map fun p => p.2.1) (ps.map fun p => p.2.2) i = some (i + k)
  | [], k, hk, _, _, _ => absurd hk (by simp)
  | p :: t, 0, _, _, hbad, i => by
    have hcond : ¬(0 ≤ p.2.1 ∧ p.2.1 ≤ 10 ∧ 0 ≤ p.2.2 ∧ p.2.2 ≤ 10) := by
      simpa [pairInRangeB] using hbad
    simp [List.map_cons, firstOutOfRange, if_neg hcond]
  | p :: t, k + 1, hk, hb, hbad, i => by
    have hcond : 0 ≤ p.2.1 ∧ p.2.1 ≤ 10 ∧ 0 ≤ p.2.2 ∧ p.2.2 ≤ 10 := by
      simpa [pairInRangeB] using hb 0 (Nat.succ_pos k)
    simp only [List.map_cons, firstOutOfRange, if_pos hcond]
    rw [firstOutOfRange_some t k (by simpa using hk)
      (fun j hj => by simpa using hb (j + 1) (Nat.succ_lt_succ hj))
      (by simpa using hbad) (i + 1)]
    congr 1
    omega

theorem headerSkip_numRow (p : String × ℚ × ℚ) : headerSkip (numRow p) = 0 := rfl

theorem headerSkip_of_fail (r : Row)
    (h : r.comm.toNum = none ∨ r.ngo.toNum = none) : headerSkip r = 1 := by
  rcases h with h | h
  · cases hn : r.ngo.toNum <;> simp [headerSkip, h, hn]
  · cases hc : r.comm.toNum <;> simp [headerSkip, h, hc]

theorem numRows_length (ps : List (String × ℚ × ℚ)) :
    (numRows ps).length = ps.length := List.length_map ps numRow

theorem numRows_take (n : Nat) (ps : List (String × ℚ × ℚ)) :
    (numRows ps).take n = numRows (ps.take n) := (List.map_take numRow ps n).symm

theorem numRows_label (ps : List (String × ℚ × ℚ)) :
    (numRows ps).map (fun r => r.label) = ps.map fun p => p.1 := by
  simp only [numRows, List.map_map]
  rfl

theorem numRows_comm (ps : List (String × ℚ × ℚ)) :
    (numRows ps).map (fun r => r.comm) = (ps.map fun p => p.2.1).map Cell.num := by
  simp only [numRows, List.map_map]
  rfl

theorem numRows_ngo (ps : List (String × ℚ × ℚ)) :
    (numRows ps).map (fun r => r.ngo) = (ps.map fun p => p.2.2).map Cell.num := by
  simp only [numRows, List.map_map]
  rfl

/-- Reduction of the normalizer on a headerless all-numeric table with at
least 9 rows: only the range check can still fail, and only the first 9
rows take part. -/
theorem loadData_numRows (ps : List (String × ℚ × ℚ)) (h9 : 9 ≤ ps.length) :
    loadData (numRows ps) =
      match firstOutOfRange ((ps.take 9).map fun p => p.2.1)
          ((ps.take 9).map fun p => p.2.2) 0 with
      | some i => .error (.rangeError (i + 1))
      | none => .ok ((ps.take 9).map fun p => p.1,
          (ps.take 9).map fun p => p.2.1,
          (ps.take 9).map fun p => p.2.2) := by
  cases ps with
  | nil => simp at h9
  | cons p t =>
    have hlen : 9 ≤ t.length + 1 := by
      simpa using h9
    have hh : (numRows (p :: t)).head? = some (numRow p) := rfl
    unfold loadData
    rw [hh]
    simp only [headerSkip_numRow, numRows_length, List.length_cons, List.drop_zero,
      numRows_take, numRows_length, List.length_take, List.length_cons,
      numRows_label, numRows_comm, numRows_ngo, seqNums_map_num]
    rw [if_neg (by omega), if_neg (by omega)]

/-- Reduction of the normalizer on the same table preceded by a header
row whose numeric coercion fails: the header is skipped and the reported
out-of-range row shifts by one. -/
theorem loadData_hdr_numRows (hdr : Row)
    (hh : hdr.comm.toNum = none ∨ hdr.ngo.toNum = none)
    (ps : List (String × ℚ × ℚ)) (h9 : 9 ≤ ps.length) :
    loadData (hdr :: numRows ps) =
      match firstOutOfRange ((ps.take 9).map fun p => p.2.1)
          ((ps.take 9).map fun p => p.2.2) 0 with
      | some i => .error (.rangeError (i + 2))
      | none => .ok ((ps.take 9).map fun p => p.1,
          (ps.take 9).map fun p => p.2.1,
          (ps.take 9).map fun p => p.2.2) := by
  have hhead : (hdr :: numRows ps).head? = some hdr := rfl
  unfold loadData
  rw [hhead]
  simp only [headerSkip_of_fail hdr hh, List.length_cons, numRows_length,
    List.drop_succ_cons, List.drop_zero, numRows_take, List.length_take,
    numRows_label, numRows_comm, numRows_ngo, seqNums_map_num]
  rw [if_neg (by omega), if_neg (by omega)]

theorem classify_spec (s : ℚ) :
    (classify s = Band.aligned ↔ s = 0) ∧
    (classify s = Band.redundant ↔ 0 < s) ∧
    (classify s = Band.gap ↔ s < -2) ∧
    (classify s = Band.partGap ↔ -2 ≤ s ∧ s < 0) := by
  unfold classify
  split_ifs with h0 hpos hgap
  · subst h0
    norm_num
  · have hne : ¬ (0:ℚ) < 0 := lt_irrefl 0
    have h2 : ¬ s < -2 := by linarith
    have h3 : ¬ s < 0 := by linarith
    simp [h0, hpos, h2, h3]
  · have h2 : ¬ (-2:ℚ) ≤ s := by linarith
    simp [h0, hpos, hgap, h2]
  · have ha : -2 ≤ s := by linarith
    have hb : s < 0 := lt_of_le_of_ne (not_lt.mp hpos) h0
    simp [h0, hpos, hgap, ha, hb]

theorem fit_score_bounds (a b : ℚ) (h1 : 0 ≤ a) (h2 : a ≤ 10) (h3 : 0 ≤ b) (h4 : b ≤ 10) :
    0 ≤ fit_score a b ∧ fit_score a b ≤ 10 ∧ (fit_score a b = 10 ↔ a = 10 ∧ b = 10) := by
  rcases le_total a b with hab | hab
  · rw [fit_score, min_eq_left hab, abs_of_nonpos (by linarith)]
    refine ⟨by linarith, by linarith, ?_⟩
    constructor
    · intro h
      have ha : a = 10 := by linarith
      have hb : b = 10 := by linarith
      exact ⟨ha, hb⟩
    · rintro ⟨rfl, rfl⟩
      norm_num
  · rw [fit_score, min_eq_right hab, abs_of_nonneg (by linarith)]
    refine ⟨by linarith, by linarith, ?_⟩
    constructor
    · intro h
      have hb : b = 10 := by linarith
      have ha : a = 10 := by linarith
      exact ⟨ha, hb⟩
    · rintro ⟨rfl, rfl⟩
      norm_num

/-! ## Claim theorems -/

/-- C6: in the tabular workflow, for every dimension with both capacities
in [0,10], the score `-10 + ngo + comm` lies in [-10, 10]; the band
follows the precedence Aligned iff score = 0, Redundant iff score > 0,
Gap iff score < -2, PartialGap iff -2 ≤ score < 0; and the boundary
cases org=10,comm=10 → 10/Redundant, org=0,comm=0 → -10/Gap,
org=5,comm=5 → 0/Aligned hold. -/
theorem C6_tab_score_bands (ngo_cap comm_cap : ℚ)
    (h1 : 0 ≤ ngo_cap) (h2 : ngo_cap ≤ 10) (h3 : 0 ≤ comm_cap) (h4 : comm_cap ≤ 10) :
    (-10 ≤ tabScore ngo_cap comm_cap ∧ tabScore ngo_cap comm_cap ≤ 10) ∧
    (classify (tabScore ngo_cap comm_cap) = Band.aligned ↔ tabScore ngo_cap comm_cap = 0) ∧
    (classify (tabScore ngo_cap comm_cap) = Band.redundant ↔ 0 < tabScore ngo_cap comm_cap) ∧
    (classify (tabScore ngo_cap comm_cap) = Band.gap ↔ tabScore ngo_cap comm_cap < -2) ∧
    (classify (tabScore ngo_cap comm_cap) = Band.partGap ↔
      -2 ≤ tabScore ngo_cap comm_cap ∧ tabScore ngo_cap comm_cap < 0) ∧
    tabScore 10 10 = 10 ∧ classify (tabScore 10 10) = Band.redundant ∧
    tabScore 0 0 = -10 ∧ classify (tabScore 0 0) = Band.gap ∧
    tabScore 5 5 = 0 ∧ classify (tabScore 5 5) = Band.aligned := by
  obtain ⟨hA, hR, hG, hP⟩ := classify_spec (tabScore ngo_cap comm_cap)
  refine ⟨⟨?_, ?_⟩, hA, hR, hG, hP, by norm_num [tabScore], ?_, by norm_num [tabScore], ?_,
    by norm_num [tabScore], ?_⟩
  · unfold tabScore
    linarith
  · unfold tabScore
    linarith
  · norm_num [tabScore, classify]
  · norm_num [tabScore, classify]
  · norm_num [tabScore, classify]

/-- Witness for C6 at the boundary inputs. -/
theorem C6_tab_score_bands_witness :
    tabScore 10 10 = 10 ∧ classify (tabScore 10 10) = Band.redundant ∧
    tabScore 0 0 = -10 ∧ classify (tabScore 0 0) = Band.gap ∧
    tabScore 5 5 = 0 ∧ classify (tabScore 5 5) = Band.aligned :=
  (C6_tab_score_bands 10 10 (by norm_num) (by norm_num) (by norm_num) (by norm_num)).2.2.2.2.2

/-- C7: for every community-capacity vector with values in [0,10], the
inner boundary radius at every point equals 10 minus the capacity (0 at
capacity 10, 10 at capacity 0), while the outer ring is the constant 10. -/
theorem C7_inner_boundary (comm : List ℚ) (_hr : ∀ v ∈ comm, 0 ≤ v ∧ v ≤ 10)
    (i : Nat) (hi : i < comm.length) :
    (communityFill comm).getD i 0 = 10 - comm.getD i 0 ∧
    (comm.getD i 0 = 10 → (communityFill comm).getD i 0 = 0) ∧
    (comm.getD i 0 = 0 → (communityFill comm).getD i 0 = 10) ∧
    (communityOuter comm).getD i 0 = 10 := by
  have hfill : (communityFill comm).getD i 0 = max_value - comm.getD i 0 := by
    unfold communityFill
    exact getD_map_lt (fun val => max_value - val) 0 0 comm i hi
  have houter : (communityOuter comm).getD i 0 = max_value := by
    unfold communityOuter
    exact getD_replicate_lt max_value 0 comm.length i hi
  have hmax : max_value = 10 := rfl
  rw [hfill, houter, hmax]
  exact ⟨rfl, fun h => by rw [h]; norm_num, fun h => by rw [h]; norm_num, rfl⟩

/-- Witness for C7 on the vector [10, 0, 5] at point 0. -/
theorem C7_inner_boundary_witness :
    (communityFill [10, 0, 5]).getD 0 0 = 10 - ([10, 0, 5] : List ℚ).getD 0 0 ∧
    (([10, 0, 5] : List ℚ).getD 0 0 = 10 → (communityFill [10, 0, 5]).getD 0 0 = 0) ∧
    (([10, 0, 5] : List ℚ).getD 0 0 = 0 → (communityFill [10, 0, 5]).getD 0 0 = 10) ∧
    (communityOuter [10, 0, 5]).getD 0 0 = 10 :=
  C7_inner_boundary [10, 0, 5] (by decide) 0 (by decide)

/-- C8: the radar geometry computes 9 angles 2π·i/9, strictly increasing
with the ninth strictly below 2π; the angle list is closed by appending
its first element, whose value is 0, so the closing angle equals
angle 0 exactly; and every value series is likewise closed by appending
its own first value. -/
theorem C8_angles :
    (angleFrac 9).length = 9 ∧
    (∀ i j : Nat, i < j → j < 9 →
      ((angleFrac 9).getD i 0 : ℝ) * (2 * Real.pi) <
        ((angleFrac 9).getD j 0 : ℝ) * (2 * Real.pi)) ∧
    ((angleFrac 9).getD 8 0 : ℝ) * (2 * Real.pi) < 2 * Real.pi ∧
    (closeLoop (angleFrac 9)).getLast? = (angleFrac 9).head? ∧
    (angleFrac 9).getD 0 0 = 0 ∧
    (∀ l : List ℚ, l ≠ [] → (closeLoop l).getLast? = l.head?) := by
  have hlen : (angleFrac 9).length = 9 := by simp [angleFrac]
  have hne : angleFrac 9 ≠ [] := by
    apply List.ne_nil_of_length_pos
    rw [hlen]
    norm_num
  refine ⟨hlen, ?_, ?_, closeLoop_getLast? _ hne, ?_, fun l hl => closeLoop_getLast? l hl⟩
  · intro i j hij hj
    rw [angleFrac_getD 9 i (lt_trans hij hj), angleFrac_getD 9 j hj]
    have hij' : (i : ℝ) < (j : ℝ) := by exact_mod_cast hij
    have hcast : (((i : ℚ) / (9 : ℚ) : ℚ) : ℝ) < (((j : ℚ) / (9 : ℚ) : ℚ) : ℝ) := by
      push_cast
      linarith
    exact mul_lt_mul_of_pos_right hcast Real.two_pi_pos
  · rw [angleFrac_getD 9 8 (by norm_num)]
    have h89 : ((((8 : ℚ) / (9 : ℚ)) : ℚ) : ℝ) < 1 := by
      push_cast
      norm_num
    calc (((8 : ℚ) / (9 : ℚ) : ℚ) : ℝ) * (2 * Real.pi)
        < 1 * (2 * Real.pi) := mul_lt_mul_of_pos_right h89 Real.two_pi_pos
      _ = 2 * Real.pi := one_mul _
  · rw [angleFrac_getD 9 0 (by norm_num)]
    norm_num

/-- Witness for C8: adjacent angles 0 and 1 are strictly ordered, and
closing a concrete series appends its first value at the end. -/
theorem C8_angles_witness :
    (((angleFrac 9).getD 0 0 : ℝ) * (2 * Real.pi) <
      ((angleFrac 9).getD 1 0 : ℝ) * (2 * Real.pi)) ∧
    (closeLoop [1, 2] : List ℚ).getLast? = ([1, 2] : List ℚ).head? :=
  ⟨C8_angles.2.1 0 1 (by norm_num) (by norm_num),
   C8_angles.2.2.2.2.2 [1, 2] (by simp)⟩

/-- C9: create_radar_chart extends both of its list arguments in place,
so after a call on two length-N lists each argument list has length N+1
with its last element equal to its first; since both mains pass copies,
the caller-held vectors are unchanged (and the slider reference vector
keeps length 9) for the scoring that follows. -/
theorem C9_chart_mutation (ngo comm : List ℚ) (N : Nat)
    (h1 : ngo.length = N) (h2 : comm.length = N) (hN : 1 ≤ N) :
    (closeLoop ngo).length = N + 1 ∧ (closeLoop comm).length = N + 1 ∧
    (closeLoop ngo).getLast? = ngo.head? ∧ (closeLoop comm).getLast? = comm.head? ∧
    afterChartCall true ngo = ngo ∧ afterChartCall true comm = comm ∧
    (afterChartCall true ngo_capabilities).length = 9 := by
  have hne1 : ngo ≠ [] := List.ne_nil_of_length_pos (by omega)
  have hne2 : comm ≠ [] := List.ne_nil_of_length_pos (by omega)
  refine ⟨?_, ?_, closeLoop_getLast? _ hne1, closeLoop_getLast? _ hne2, rfl, rfl, rfl⟩
  · rw [closeLoop_length _ hne1, h1]
  · rw [closeLoop_length _ hne2, h2]

/-- Witness for C9 on two concrete 3-element lists. -/
theorem C9_chart_mutation_witness :
    (closeLoop [1, 2, 3] : List ℚ).length = 4 ∧
    (closeLoop [4, 5, 6] : List ℚ).length = 4 ∧
    (closeLoop [1, 2, 3] : List ℚ).getLast? = ([1, 2, 3] : List ℚ).head? ∧
    (closeLoop [4, 5, 6] : List ℚ).getLast? = ([4, 5, 6] : List ℚ).head? ∧
    afterChartCall true [1, 2, 3] = [1, 2, 3] ∧
    afterChartCall true [4, 5, 6] = [4, 5, 6] ∧
    (afterChartCall true ngo_capabilities).length = 9 :=
  C9_chart_mutation [1, 2, 3] [4, 5, 6] 3 rfl rfl (by omega)

/-- C10: in the slider workflow every per-dimension score
min(org,comm) + 0.1·|org-comm| over inputs in [0,10] lies in [0,10],
reaching 10 exactly when both inputs are 10, and the overall fit —
a mean of such scores — also lies in [0,10], so the "x/10" reading is
well-formed. -/
theorem C10_fit_bounds (a b : ℚ) (h1 : 0 ≤ a) (h2 : a ≤ 10) (h3 : 0 ≤ b) (h4 : b ≤ 10) :
    0 ≤ fit_score a b ∧ fit_score a b ≤ 10 ∧
    (fit_score a b = 10 ↔ a = 10 ∧ b = 10) ∧
    ∀ comm : List ℚ, comm.length = 9 → (∀ v ∈ comm, 0 ≤ v ∧ v ≤ 10) →
      0 ≤ overall_fit comm ∧ overall_fit comm ≤ 10 := by
  obtain ⟨hb1, hb2, hb3⟩ := fit_score_bounds a b h1 h2 h3 h4
  refine ⟨hb1, hb2, hb3, ?_⟩
  intro comm hlen hbnd
  have hdrop : ∀ x ∈ ngo_capabilities.dropLast, 0 ≤ x ∧ x ≤ 10 := by decide
  have hsub : ∀ s ∈ fit_scores comm, 0 ≤ s ∧ s ≤ 10 := by
    intro s hs
    rw [fit_scores] at hs
    obtain ⟨p, hp, rfl⟩ := List.mem_map.mp hs
    obtain ⟨hp1, hp2⟩ := List.of_mem_zip hp
    obtain ⟨hn1, hn2⟩ := hdrop p.1 hp1
    obtain ⟨hc1, hc2⟩ := hbnd p.2 hp2
    obtain ⟨q1, q2, _⟩ := fit_score_bounds p.1 p.2 hn1 hn2 hc1 hc2
    exact ⟨q1, q2⟩
  have hsum := sum_bounds_of_ranges _ hsub
  have hlen8 : (fit_scores comm).length = 8 := by
    rw [fit_scores, List.length_map, List.length_zip, List.length_dropLast, hlen]
    decide
  have hs2 := hsum.2
  rw [hlen8] at hs2
  push_cast at hs2
  rw [overall_fit, hlen8]
  push_cast
  constructor
  · apply div_nonneg hsum.1
    norm_num
  · rw [div_le_iff₀ (by norm_num : (0:ℚ) < 8)]
    linarith

/-- Witness for C10 at the spec example org=5, comm=0, and an all-zero
slider vector. -/
theorem C10_fit_bounds_witness :
    0 ≤ fit_score 5 0 ∧ fit_score 5 0 ≤ 10 ∧
    (0 ≤ overall_fit [0, 0, 0, 0, 0, 0, 0, 0, 0] ∧
      overall_fit [0, 0, 0, 0, 0, 0, 0, 0, 0] ≤ 10) := by
  have h := C10_fit_bounds 5 0 (by norm_num) (by norm_num) (by norm_num) (by norm_num)
  exact ⟨h.1, h.2.1, h.2.2.2 [0, 0, 0, 0, 0, 0, 0, 0, 0] rfl (by decide)⟩

/-- C1 counterexample: the label "2.1 Income & Revenue" does NOT resolve
to the income/revenue remediation text — the first catalogue entry wins
because its constituent word "&" occurs in the label. -/
theorem C1_lookup_counterexample :
    findRecommendation "2.1 Income & Revenue" ≠
      "adapting business model to increase the portion of the revenue reserved for tour guide salaries and conservation" := by
  decide

/-- C1 (amended): the PartialGap recommendation is found by scanning the
9-entry catalogue in its defined order and selecting the first entry
whose name matches by case-insensitive substring or by one of its
constituent words occurring in the label, falling back to the generic
suggestion when nothing matches; a dimension labelled
"2.1 Income & Revenue" with score -1 is in the PartialGap band and
resolves to the awareness/education text of the FIRST entry (whose
word "&" occurs in the label). -/
theorem C1_lookup_amended :
    (∀ (theme : String) (i : Nat), i < strategic_recommendations.length →
      themeMatches (strategic_recommendations.getD i kvDummy).1 theme = true →
      (∀ j, j < i → themeMatches (strategic_recommendations.getD j kvDummy).1 theme = false) →
      findRecommendation theme = (strategic_recommendations.getD i kvDummy).2) ∧
    (∀ theme : String, (∀ kv ∈ strategic_recommendations, themeMatches kv.1 theme = false) →
      findRecommendation theme = "general strategic adjustments") ∧
    strategic_recommendations.length = 9 ∧
    tabScore 6 3 = -1 ∧ classify (tabScore 6 3) = Band.partGap ∧
    findRecommendation "2.1 Income & Revenue" =
      "improving communication on the effects of conservation, or reaching out to younger generations" := by
  refine ⟨?_, ?_, rfl, by norm_num [tabScore], by norm_num [tabScore, classify], by decide⟩
  · intro theme i hi hp hb
    have hfind := find?_getD_first (fun kv => themeMatches kv.1 theme) kvDummy
      strategic_recommendations i hi hp hb
    rw [findRecommendation, hfind]
  · intro theme hnone
    have hfind : strategic_recommendations.find? (fun kv => themeMatches kv.1 theme) = none := by
      rw [List.find?_eq_none]
      intro kv hkv
      simp [hnone kv hkv]
    rw [findRecommendation, hfind]

/-- Witness for C1: "2.2 Employment" matches no entry before the fifth
and is resolved to the fifth entry's text. -/
theorem C1_lookup_amended_witness :
    findRecommendation "2.2 Employment" =
      "offer employment to more local residents with opportunities to develop skills and expertise" := by
  have h := C1_lookup_amended.1 "2.2 Employment" 4 (by decide) (by decide) (by decide)
  exact h.trans (by decide)

/-- C3 divergence evaluation: the slider main zips
`ngo_capabilities[:-1]` — dropping a real dimension, since the chart got
copies and nothing was mutated — so only 8 of the 9 per-dimension scores
enter the mean.  On all-zero community capacities the code yields 33/80
while the mean over all nine scores is 13/30, and changing the ninth
community value from 0 to 10 does not change the code's overall fit. -/
theorem C3_mean_divergence :
    overall_fit [0, 0, 0, 0, 0, 0, 0, 0, 0] = 33 / 80 ∧
    spec_overall_fit [0, 0, 0, 0, 0, 0, 0, 0, 0] = 13 / 30 ∧
    (33 / 80 : ℚ) ≠ 13 / 30 ∧
    overall_fit [0, 0, 0, 0, 0, 0, 0, 0, 10] = overall_fit [0, 0, 0, 0, 0, 0, 0, 0, 0] ∧
    spec_overall_fit [0, 0, 0, 0, 0, 0, 0, 0, 10] ≠
      spec_overall_fit [0, 0, 0, 0, 0, 0, 0, 0, 0] := by
  refine ⟨?_, ?_, by norm_num, ?_, ?_⟩
  · norm_num [overall_fit, fit_scores, fit_score, ngo_capabilities, List.zip]
  · norm_num [spec_overall_fit, spec_fit_scores, fit_score, ngo_capabilities, List.zip]
  · norm_num [overall_fit, fit_scores, fit_score, ngo_capabilities, List.zip]
  · norm_num [spec_overall_fit, spec_fit_scores, fit_score, ngo_capabilities, List.zip]

/-- C2: for every 9-row table of valid data rows (numeric, in range) and
every header row whose numeric coercion fails, the table with the header
and the table without it normalize to the same successful Assessment;
the first data row, being numeric, is treated as data. -/
theorem C2_header_idempotent (hdr : Row)
    (hh : hdr.comm.toNum = none ∨ hdr.ngo.toNum = none)
    (ps : List (String × ℚ × ℚ)) (hlen : ps.length = 9)
    (hr : ∀ p ∈ ps, pairInRangeB p = true) :
    loadData (hdr :: numRows ps) = loadData (numRows ps) ∧
    loadData (numRows ps) =
      .ok (ps.map fun p => p.1, ps.map fun p => p.2.1, ps.map fun p => p.2.2) := by
  have h9 : 9 ≤ ps.length := by omega
  have htake : ps.take 9 = ps := by
    rw [← hlen]
    exact List.take_length ps
  have hF := firstOutOfRange_none ps hr 0
  have h1 := loadData_numRows ps h9
  have h2 := loadData_hdr_numRows hdr hh ps h9
  rw [htake] at h1 h2
  simp only [hF] at h1 h2
  exact ⟨h2.trans h1.symm, h1⟩

/-- Witness for C2 on a concrete 9-row table with and without a textual
header row. -/
theorem C2_header_idempotent_witness :
    loadData (⟨"Theme", Cell.nonNum "Community Capacity", Cell.nonNum "NGO Capability"⟩ ::
        numRows [("a", 1, 2), ("b", 2, 3), ("c", 3, 4), ("d", 4, 5), ("e", 5, 6),
          ("f", 6, 7), ("g", 7, 8), ("h", 8, 9), ("i", 9, 10)]) =
      loadData (numRows [("a", 1, 2), ("b", 2, 3), ("c", 3, 4), ("d", 4, 5), ("e", 5, 6),
        ("f", 6, 7), ("g", 7, 8), ("h", 8, 9), ("i", 9, 10)]) ∧
    loadData (numRows [("a", 1, 2), ("b", 2, 3), ("c", 3, 4), ("d", 4, 5), ("e", 5, 6),
        ("f", 6, 7), ("g", 7, 8), ("h", 8, 9), ("i", 9, 10)]) =
      .ok (["a", "b", "c", "d", "e", "f", "g", "h", "i"],
        [1, 2, 3, 4, 5, 6, 7, 8, 9], [2, 3, 4, 5, 6, 7, 8, 9, 10]) :=
  C2_header_idempotent ⟨"Theme", Cell.nonNum "Community Capacity", Cell.nonNum "NGO Capability"⟩
    (Or.inl rfl)
    [("a", 1, 2), ("b", 2, 3), ("c", 3, 4), ("d", 4, 5), ("e", 5, 6),
      ("f", 6, 7), ("g", 7, 8), ("h", 8, 9), ("i", 9, 10)] rfl (by decide)

/-- C4: on a 9-row all-numeric table whose first out-of-range row is data
row k (0-based), the normalizer rejects with a RangeError naming the
original 1-based position: k+1 with no header, k+2 when a failing header
row precedes the data. -/
theorem C4_range_error (ps : List (String × ℚ × ℚ)) (k : Nat)
    (hlen : ps.length = 9) (hk : k < 9)
    (hb : ∀ j, j < k → pairInRangeB (ps.getD j pdummy) = true)
    (hbad : pairInRangeB (ps.getD k pdummy) = false) :
    loadData (numRows ps) = .error (.rangeError (k + 1)) ∧
    ∀ hdr : Row, hdr.comm.toNum = none ∨ hdr.ngo.toNum = none →
      loadData (hdr :: numRows ps) = .error (.rangeError (k + 2)) := by
  have h9 : 9 ≤ ps.length := by omega
  have htake : ps.take 9 = ps := by
    rw [← hlen]
    exact List.take_length ps
  have hF := firstOutOfRange_some ps k (by omega) hb hbad 0
  constructor
  · have h1 := loadData_numRows ps h9
    rw [htake] at h1
    simp only [hF] at h1
    simpa using h1
  · intro hdr hh
    have h2 := loadData_hdr_numRows hdr hh ps h9
    rw [htake] at h2
    simp only [hF] at h2
    simpa using h2

/-- Witness for C4: a value 11 in data row 5 is reported as row 5 with no
header and as row 6 after a header row. -/
theorem C4_range_error_witness :
    loadData (numRows [("a", 1, 1), ("b", 2, 2), ("c", 3, 3), ("d", 4, 4), ("e", 11, 5),
        ("f", 5, 5), ("g", 6, 6), ("h", 7, 7), ("i", 8, 8)]) =
      .error (.rangeError 5) ∧
    loadData (⟨"Theme", Cell.nonNum "x", Cell.nonNum "y"⟩ ::
        numRows [("a", 1, 1), ("b", 2, 2), ("c", 3, 3), ("d", 4, 4), ("e", 11, 5),
          ("f", 5, 5), ("g", 6, 6), ("h", 7, 7), ("i", 8, 8)]) =
      .error (.rangeError 6) := by
  have h := C4_range_error [("a", 1, 1), ("b", 2, 2), ("c", 3, 3), ("d", 4, 4), ("e", 11, 5),
    ("f", 5, 5), ("g", 6, 6), ("h", 7, 7), ("i", 8, 8)] 4 rfl (by omega) (by decide) (by decide)
  exact ⟨h.1, h.2 ⟨"Theme", Cell.nonNum "x", Cell.nonNum "y"⟩ (Or.inl rfl)⟩

/-- C5 counterexample: an all-numeric in-range table with 10 data rows
does NOT fail with a row-count error — the normalizer succeeds, building
the Assessment from the first 9 rows and ignoring the tenth. -/
theorem C5_row_count_counterexample :
    (numRows [("r1", 1, 1), ("r2", 2, 2), ("r3", 3, 3), ("r4", 4, 4), ("r5", 5, 5),
        ("r6", 6, 6), ("r7", 7, 7), ("r8", 8, 8), ("r9", 9, 9), ("r10", 10, 10)]).length = 10 ∧
    loadData (numRows [("r1", 1, 1), ("r2", 2, 2), ("r3", 3, 3), ("r4", 4, 4), ("r5", 5, 5),
        ("r6", 6, 6), ("r7", 7, 7), ("r8", 8, 8), ("r9", 9, 9), ("r10", 10, 10)]) =
      .ok (["r1", "r2", "r3", "r4", "r5", "r6", "r7", "r8", "r9"],
        [1, 2, 3, 4, 5, 6, 7, 8, 9], [1, 2, 3, 4, 5, 6, 7, 8, 9]) :=
  ⟨rfl, rfl⟩

/-- C5 (amended): the tabular normalizer requires AT LEAST 9 data rows
after the optional header skip: fewer rows fail with a RowCountError
whose message states the exact total required (9 without a header, 10
with one); tables with 9 or more data rows do not fail on row count —
the first 9 data rows are used and any further rows are ignored. -/
theorem C5_row_count_amended :
    (∀ (rows : List Row) (r0 : Row), rows.head? = some r0 → headerSkip r0 = 0 →
      rows.length < 9 → loadData rows = .error (.rowCountError 9)) ∧
    (∀ (rows : List Row) (r0 : Row), rows.head? = some r0 → headerSkip r0 = 1 →
      rows.length < 10 → loadData rows = .error (.rowCountError 10)) ∧
    (∀ ps : List (String × ℚ × ℚ), 9 ≤ ps.length →
      (∀ p ∈ ps.take 9, pairInRangeB p = true) →
      loadData (numRows ps) = .ok ((ps.take 9).map fun p => p.1,
        (ps.take 9).map fun p => p.2.1, (ps.take 9).map fun p => p.2.2)) := by
  refine ⟨?_, ?_, ?_⟩
  · intro rows r0 hhead hskip hlt
    cases rows with
    | nil => simp at hhead
    | cons r t =>
      have hr : r = r0 := by simpa using hhead
      subst hr
      unfold loadData
      rw [show (r :: t).head? = some r from rfl]
      simp only [hskip]
      rw [if_pos (by simp only [List.length_cons] at hlt ⊢; omega)]
  · intro rows r0 hhead hskip hlt
    cases rows with
    | nil => simp at hhead
    | cons r t =>
      have hr : r = r0 := by simpa using hhead
      subst hr
      unfold loadData
      rw [show (r :: t).head? = some r from rfl]
      simp only [hskip]
      rw [if_pos (by simp only [List.length_cons] at hlt ⊢; omega)]
  · intro ps h9 hr
    have h1 := loadData_numRows ps h9
    have hF := firstOutOfRange_none (ps.take 9) hr 0
    simp only [hF] at h1
    exact h1

/-- Witness for C5: a single-row table fails asking for 9 rows; a
header plus one row fails asking for 10; a 10-row table succeeds on its
first 9 rows. -/
theorem C5_row_count_amended_witness :
    loadData [⟨"a", Cell.num 1, Cell.num 2⟩] = .error (.rowCountError 9) ∧
    loadData [⟨"h", Cell.nonNum "x", Cell.nonNum "y"⟩, ⟨"a", Cell.num 1, Cell.num 2⟩] =
      .error (.rowCountError 10) ∧
    loadData (numRows [("s1", 0, 0), ("s2", 1, 1), ("s3", 2, 2), ("s4", 3, 3), ("s5", 4, 4),
        ("s6", 5, 5), ("s7", 6, 6), ("s8", 7, 7), ("s9", 8, 8), ("s10", 9, 9)]) =
      .ok (["s1", "s2", "s3", "s4", "s5", "s6", "s7", "s8", "s9"],
        [0, 1, 2, 3, 4, 5, 6, 7, 8], [0, 1, 2, 3, 4, 5, 6, 7, 8]) := by
  refine ⟨?_, ?_, ?_⟩
  · exact C5_row_count_amended.1 [⟨"a", Cell.num 1, Cell.num 2⟩] ⟨"a", Cell.num 1, Cell.num 2⟩
      rfl rfl (by decide)
  · exact C5_row_count_amended.2.1
      [⟨"h", Cell.nonNum "x", Cell.nonNum "y"⟩, ⟨"a", Cell.num 1, Cell.num 2⟩]
      ⟨"h", Cell.nonNum "x", Cell.nonNum "y"⟩ rfl rfl (by decide)
  · exact C5_row_count_amended.2.2
      [("s1", 0, 0), ("s2", 1, 1), ("s3", 2, 2), ("s4", 3, 3), ("s5", 4, 4),
        ("s6", 5, 5), ("s7", 6, 6), ("s8", 7, 7), ("s9", 8, 8), ("s10", 9, 9)]
      (by decide) (by decide)
